import Mathlib

/-!
Verification of the download-orchestration core of drop-app.

The embedding covers:

* the scheduler loop of `src-tauri/src/downloads/download_manager_builder.rs`
  (`DownloadManagerBuilder`): its state, its per-signal handlers and the
  signal-processing loop `manage_queue`;
* the chunk pipeline of `src-tauri/src/downloads/download_logic.rs`
  (`DropWriter`, `DropDownloadPipeline::copy`, `download_game_chunk`).

Pure data (ids, versions, byte buffers) is modelled with `String`, `Nat` and
`List Nat`.  Shared mutable objects are modelled by explicit state passing:

* `HashMap<String, Arc<GameDownloadAgent>>` (the agent registry) becomes an
  association list with `insert` replacing an existing key, exactly as
  `HashMap::insert` does;
* each agent's shared `DownloadThreadControl` object is modelled by a store
  `flags : List (String × DownloadThreadControlFlag)` keyed by agent id,
  and the scheduler's aliasing `active_control_flag : Option<DownloadThreadControl>`
  becomes `Option String` (the id of the agent whose flag object it aliases);
  `set` on the alias mutates the store entry in place;
* the shared `Arc<Mutex<Option<ProgressObject>>>` slot becomes `Option String`
  (which agent's progress object is bound);
* `Arc<AgentInterfaceData>` entries of the queue are represented by their id;
  their shared `Mutex<GameDownloadStatus>` cells live in a store keyed by id.

Rust panics (`unwrap` on `None`, file-open failure) are modelled explicitly as
a `panicked` outcome; the possibly non-terminating copy loop takes fuel, with
`none` meaning the loop has not terminated within the given fuel.
-/

namespace DropApp

/-- Tri-state control flag. `Go` and `Stop` are the variants used by the code
under `src/`; the defining file `download_thread_control_flag.rs` is not in
`src/`. Modelled from the spec: "Control Flag — a shared, thread-safe tri-state
flag (Go / Pause / Stop)". -/
inductive DownloadThreadControlFlag where
  | go
  | stop
  | pause
deriving DecidableEq, Repr

/-- Errors of the download layer. The defining file `download_agent.rs` is not
in `src/`; the variants are modelled from their uses in
`download_logic.rs`/`download_manager_builder.rs` and the spec's error
taxonomy (Communication / Io / Checksum). -/
inductive RemoteAccessError where
  | invalidCodeError (code : Nat)
  | invalidResponse
deriving DecidableEq, Repr

inductive GameDownloadError where
  | communication (e : RemoteAccessError)
  | ioError
  | checksum
deriving DecidableEq, Repr

/-- `DownloadManagerSignal` from `download_manager.rs` (not in `src/`), with
the variants and payloads exactly as matched in
`DownloadManagerBuilder::manage_queue` and described in the spec's data
model. -/
inductive DownloadManagerSignal where
  | go
  | stop
  | completed (gameId : String)
  | queue (gameId : String) (version : String) (targetDownloadDir : Nat)
  | finish
  | error (e : GameDownloadError)
  | cancel (gameId : String)
deriving DecidableEq, Repr

/-- Per-job status stored in `AgentInterfaceData.status`. Modelled from the
spec's JobHandle enum; only `Uninitialised` (queue admission) and `Error`
(error handler) are written by the code under `src/`. -/
inductive GameDownloadStatus where
  | uninitialised
  | queued
  | downloading
  | error
  | completed
deriving DecidableEq, Repr

/-- `DatabaseGameStatus` values written through `set_game_status` by the code
under `src/`. -/
inductive DatabaseGameStatus where
  | queued
  | downloading
  | installed
deriving DecidableEq, Repr

/-- `DownloadManagerStatus` (declared in `download_manager.rs`, not in
`src/`); variants modelled from their uses and the spec's Manager Status
`{Empty, Downloading, Error(lastError), Paused}`. -/
inductive DownloadManagerStatus where
  | empty
  | downloading
  | error (e : GameDownloadError)
  | paused
deriving DecidableEq, Repr

/-- `GameDownloadAgent::new(id, version, target_download_dir, sender)`: the
pure payload of an agent (its shared flag and progress objects are modelled
in the scheduler state's stores). -/
structure GameDownloadAgent where
  id : String
  version : String
  targetDownloadDir : Nat
deriving DecidableEq, Repr

/-- Association-list lookup, keyed on the first component. -/
def lookupA {α : Type} (k : String) : List (String × α) → Option α
  | [] => none
  | (k', v) :: rest => if k' = k then some v else lookupA k rest

/-- `HashMap::remove` / map deletion: drop the entry with key `k`. -/
def removeA {α : Type} (k : String) (m : List (String × α)) : List (String × α) :=
  m.filter (fun p => p.1 ≠ k)

/-- `HashMap::insert`: add the binding `k ↦ v`, replacing any existing entry. -/
def insertA {α : Type} (k : String) (v : α) (m : List (String × α)) : List (String × α) :=
  (k, v) :: removeA k m

/-- Mutate the shared object stored under key `k` in place (the model of
`DownloadThreadControl::set` through an alias). -/
def setA {α : Type} (k : String) (v : α) (m : List (String × α)) : List (String × α) :=
  m.map (fun p => if p.1 = k then (p.1, v) else p)

/-- `iter().position(|interface| interface.id == game_id)`: index of the first
element equal to `x`. -/
def position (x : String) : List String → Option Nat
  | [] => none
  | y :: ys => if y = x then some 0 else (position x ys).map (· + 1)

/-- The mutable state of `DownloadManagerBuilder` (plus the stores holding the
shared objects it aliases).  Field correspondence:

* `registry`      ↦ `download_agent_registry : HashMap<String, Arc<GameDownloadAgent>>`
* `queue`         ↦ `download_queue : Queue` (ids of the `AgentInterfaceData` entries)
* `flags`         ↦ the per-agent `DownloadThreadControl` objects, keyed by agent id
* `activeControlFlag` ↦ `active_control_flag : Option<DownloadThreadControl>` (alias, by id)
* `currentGameInterface` ↦ `current_game_interface : Option<Arc<AgentInterfaceData>>` (by id)
* `progress`      ↦ `progress : Arc<Mutex<Option<ProgressObject>>>` (bound agent id)
* `status`        ↦ `status : Arc<Mutex<DownloadManagerStatus>>`
* `jobStatus`     ↦ the `AgentInterfaceData.status` cells, keyed by id
* `dbStatus`      ↦ the per-game statuses written by `set_game_status`. -/
structure BuilderState where
  registry : List (String × GameDownloadAgent)
  queue : List String
  flags : List (String × DownloadThreadControlFlag)
  activeControlFlag : Option String
  currentGameInterface : Option String
  progress : Option String
  status : DownloadManagerStatus
  jobStatus : List (String × GameDownloadStatus)
  dbStatus : List (String × DatabaseGameStatus)
deriving DecidableEq, Repr

/-- The state built by `DownloadManagerBuilder::build`. -/
def initState : BuilderState :=
  { registry := []
    queue := []
    flags := []
    activeControlFlag := none
    currentGameInterface := none
    progress := none
    status := DownloadManagerStatus.empty
    jobStatus := []
    dbStatus := [] }

/-- Observable output of one signal-handling step: the new state, the signals
the handler sent into its own channel, and the ids of the agents for which a
worker thread was spawned. -/
structure StepOut where
  state : BuilderState
  emitted : List DownloadManagerSignal
  spawned : List String
deriving DecidableEq, Repr

/-- Result of one signal-handling step: either the handler returned, or it
panicked (an `unwrap` of `None`). -/
inductive StepResult where
  | ok (out : StepOut)
  | panicked
deriving DecidableEq, Repr

/-- Initial value of a freshly created agent's control flag.
`GameDownloadAgent::new` is not in `src/`. Modelled from the spec: the agent
"exits immediately reporting not completed" if the flag is `Stop` at start,
and `manage_go_signal` explicitly sets the flag to `Go` on admission, so a
fresh agent starts stopped. No theorem below depends on this choice. -/
def initialFlag : DownloadThreadControlFlag := DownloadThreadControlFlag.stop

/-- `DownloadManagerBuilder::manage_queue_signal`: build a fresh agent (with
fresh flag and progress objects), insert it into the registry, append its
interface to the queue, and persist status `Queued`. -/
def manageQueueSignal (s : BuilderState) (id version : String)
    (targetDownloadDir : Nat) : StepResult :=
  StepResult.ok
    { state :=
        { s with
          registry := insertA id ⟨id, version, targetDownloadDir⟩ s.registry
          flags := insertA id initialFlag s.flags
          queue := s.queue ++ [id]
          jobStatus := insertA id GameDownloadStatus.uninitialised s.jobStatus
          dbStatus := insertA id DatabaseGameStatus.queued s.dbStatus }
      emitted := []
      spawned := [] }

/-- `DownloadManagerBuilder::manage_completed_signal`: if the current game
interface matches `gameId`, pop the queue front, remove the registry entry,
clear the active flag and progress bindings and persist `Installed`; in every
case send `Go` back into the channel. -/
def manageCompletedSignal (s : BuilderState) (gameId : String) : StepResult :=
  let s' :=
    match s.currentGameInterface with
    | some cid =>
        if cid = gameId then
          { s with
            queue := s.queue.tail
            registry := removeA gameId s.registry
            activeControlFlag := none
            progress := none
            dbStatus := insertA gameId DatabaseGameStatus.installed s.dbStatus }
        else s
    | none => s
  StepResult.ok { state := s', emitted := [DownloadManagerSignal.go], spawned := [] }

/-- `DownloadManagerBuilder::manage_go_signal`: return unchanged when the
registry or the queue is empty; otherwise bind the front interface as current,
bind its progress and control flag as active, spawn a worker for its agent
(`registry.get(front).unwrap()` panics when the front id has no registry
entry), set the flag to `Go` and both statuses to `Downloading`. -/
def manageGoSignal (s : BuilderState) : StepResult :=
  if s.registry.isEmpty || s.queue.isEmpty then
    StepResult.ok { state := s, emitted := [], spawned := [] }
  else
    match s.queue.head? with
    | none => StepResult.panicked
    | some front =>
        match lookupA front s.registry with
        | none => StepResult.panicked
        | some _agent =>
            StepResult.ok
              { state :=
                  { s with
                    currentGameInterface := some front
                    progress := some front
                    activeControlFlag := some front
                    flags := setA front DownloadThreadControlFlag.go s.flags
                    status := DownloadManagerStatus.downloading
                    dbStatus := insertA front DatabaseGameStatus.downloading s.dbStatus }
                emitted := []
                spawned := [front] }

/-- `DownloadManagerBuilder::manage_stop_signal`: set the active control flag
(if any) to `Stop`. -/
def manageStopSignal (s : BuilderState) : StepResult :=
  match s.activeControlFlag with
  | some fid =>
      StepResult.ok
        { state := { s with flags := setA fid DownloadThreadControlFlag.stop s.flags }
          emitted := []
          spawned := [] }
  | none => StepResult.ok { state := s, emitted := [], spawned := [] }

/-- `DownloadManagerBuilder::manage_error_signal`:
`self.current_game_interface.clone().unwrap()` panics when no current game
interface is bound; otherwise mark the interface's status `Error` and the
manager status `Error(e)`. -/
def manageErrorSignal (s : BuilderState) (e : GameDownloadError) : StepResult :=
  match s.currentGameInterface with
  | none => StepResult.panicked
  | some cid =>
      StepResult.ok
        { state :=
            { s with
              jobStatus := insertA cid GameDownloadStatus.error s.jobStatus
              status := DownloadManagerStatus.error e }
          emitted := []
          spawned := [] }

/-- `DownloadManagerBuilder::manage_cancel_signal`: if an active control flag
is bound, set it to `Stop` and clear the active flag and progress bindings
(unconditionally, before `gameId` is even inspected); remove `gameId` from the
registry; then look up `gameId`'s position in the queue — if absent, return
early (no `Go` is sent), otherwise remove that queue entry and send `Go`. -/
def manageCancelSignal (s : BuilderState) (gameId : String) : StepResult :=
  let s1 :=
    match s.activeControlFlag with
    | some fid =>
        { s with
          flags := setA fid DownloadThreadControlFlag.stop s.flags
          activeControlFlag := none
          progress := none }
    | none => s
  let s2 := { s1 with registry := removeA gameId s1.registry }
  match position gameId s2.queue with
  | none => StepResult.ok { state := s2, emitted := [], spawned := [] }
  | some idx =>
      StepResult.ok
        { state := { s2 with queue := s2.queue.eraseIdx idx }
          emitted := [DownloadManagerSignal.go]
          spawned := [] }

/-- The `Finish` arm of `manage_queue`: set the active flag (if any) to `Stop`;
the loop then returns (no further signals are processed). -/
def manageFinishSignal (s : BuilderState) : StepResult :=
  match s.activeControlFlag with
  | some fid =>
      StepResult.ok
        { state := { s with flags := setA fid DownloadThreadControlFlag.stop s.flags }
          emitted := []
          spawned := [] }
  | none => StepResult.ok { state := s, emitted := [], spawned := [] }

/-- One iteration of `DownloadManagerBuilder::manage_queue`: dispatch a
received signal to its handler. -/
def step (s : BuilderState) : DownloadManagerSignal → StepResult
  | DownloadManagerSignal.go => manageGoSignal s
  | DownloadManagerSignal.stop => manageStopSignal s
  | DownloadManagerSignal.completed gameId => manageCompletedSignal s gameId
  | DownloadManagerSignal.queue gameId version dir => manageQueueSignal s gameId version dir
  | DownloadManagerSignal.finish => manageFinishSignal s
  | DownloadManagerSignal.error e => manageErrorSignal s e
  | DownloadManagerSignal.cancel gameId => manageCancelSignal s gameId

/-- Run the scheduler over a channel trace: the list is the exact arrival
order of signals on the mpsc channel (self-sent signals such as the `Go`
emitted by `Completed`/`Cancel` are enqueued at the moment the handler sends
them, so they arrive after every signal already in the channel; a trace places
each of them at its arrival position, or omits it when the run stops at a
stable point before it is consumed).  `none` means some handler panicked. -/
def run (s : BuilderState) : List DownloadManagerSignal → Option BuilderState
  | [] => some s
  | sig :: rest =>
      match step s sig with
      | StepResult.ok out => run out.state rest
      | StepResult.panicked => none

/-- The multiset-free view the queue/registry invariant talks about: the ids
present in the queue and in the registry. -/
def registryIds (s : BuilderState) : List String := s.registry.map Prod.fst

/-- `DropDownloadContext` (declared in `manifest.rs`, not in `src/`); fields
modelled from their uses in `download_logic.rs` and the spec's Chunk Context.
`path` is the destination file path, `offset` the byte offset, `permissions`
the POSIX mode, `checksum` the expected checksum in hex. -/
structure DropDownloadContext where
  gameId : String
  version : String
  fileName : String
  index : Nat
  path : String
  offset : Nat
  permissions : Nat
  checksum : String
deriving DecidableEq, Repr

/-- The external world a `download_game_chunk` call interacts with: the set of
existing destination files, and the HTTP response the chunk request yields
(status code, `Content-Length` header, body bytes).  An HTTP body framed by a
`Content-Length` header delivers at most that many bytes. -/
structure ChunkEnv where
  fs : List String
  responseStatus : Nat
  contentLength : Option Nat
  body : List Nat
deriving DecidableEq, Repr

/-- `DropDownloadPipeline`: the streaming source (remaining body bytes), the
bytes written to the destination through the `DropWriter` (the buffered writer
is flushed on drop, so `written` is the flushed content), the control flag
value, the total added to the progress handle, and the declared size. The
flag is held constant during the copy: this models the traces where no
concurrent `set` lands mid-copy. -/
structure DropDownloadPipeline where
  source : List Nat
  written : List Nat
  controlFlag : DownloadThreadControlFlag
  progress : Nat
  size : Nat
deriving DecidableEq, Repr

/-- One `read` from the response body: `Read::read` with a 512-byte buffer
returns `min 512 remaining` bytes (and `0` at end of stream). -/
def readChunkLen (source : List Nat) : Nat := min 512 source.length

/-- `DropDownloadPipeline::copy`, fuel-indexed.  Each iteration: check the
control flag (return `Ok(false)` on `Stop`); read up to 512 bytes from the
source; write them and add them to the progress; break with `Ok(true)` when
the running `current_size` equals `self.size`, else loop.  `none` means the
loop has not returned within `fuel` iterations. -/
def copyLoop : Nat → DropDownloadPipeline → Nat → Option (Bool × DropDownloadPipeline)
  | 0, _, _ => none
  | fuel + 1, p, currentSize =>
      if p.controlFlag = DownloadThreadControlFlag.stop then
        some (false, p)
      else
        let bytesRead := readChunkLen p.source
        let p' : DropDownloadPipeline :=
          { p with
            source := p.source.drop bytesRead
            written := p.written ++ p.source.take bytesRead
            progress := p.progress + bytesRead }
        if currentSize + bytesRead = p.size then some (true, p')
        else copyLoop fuel p' (currentSize + bytesRead)

/-- `copy` starts its `current_size` accumulator at `0`. -/
def copy (fuel : Nat) (p : DropDownloadPipeline) : Option (Bool × DropDownloadPipeline) :=
  copyLoop fuel p 0

/-- How a `download_game_chunk` call returned. -/
inductive ChunkRet where
  | ok (completed : Bool)
  | err (e : GameDownloadError)
  | panicked
deriving DecidableEq, Repr

/-- Observable outcome of `download_game_chunk`: its return value, the bytes
written to the destination, whether `progress.set(0)` was called, and whether
the destination's permissions were set. -/
structure ChunkResult where
  ret : ChunkRet
  written : List Nat
  progressSetZero : Bool
  permissionsSet : Bool
deriving DecidableEq, Repr

/-- `download_game_chunk` of `download_logic.rs`.  In source order:

1. if the control flag is `Stop`, `progress.set(0)` and return `Ok(false)`;
2. issue the chunk request; a non-200 status returns
   `Err(Communication(InvalidCodeError(400)))` (the literal `400` is
   hard-coded at the call site);
3. `DropWriter::new` opens the destination with
   `OpenOptions::new().write(true).open(path).unwrap()` — write-only, no
   create flag — which panics when the file does not exist;
4. a missing `Content-Length` returns `Err(Communication(InvalidResponse))`;
5. run `DropDownloadPipeline::copy`; `Ok(false)` (flag stop) propagates as
   `Ok(false)`;
6. on a completed copy, under `#[cfg(unix)]` set the destination's
   permissions from `ctx.permissions` (on non-unix targets the block is
   compiled out); the checksum computation and comparison that follow are
   commented out in the source; return `Ok(true)`.

`isUnix` models the `cfg(unix)` conditional; `fuel` bounds the copy loop;
`none` means the copy loop did not terminate within `fuel`. -/
def downloadGameChunk (isUnix : Bool) (fuel : Nat) (ctx : DropDownloadContext)
    (env : ChunkEnv) (controlFlag : DownloadThreadControlFlag) : Option ChunkResult :=
  if controlFlag = DownloadThreadControlFlag.stop then
    some { ret := ChunkRet.ok false, written := [], progressSetZero := true,
           permissionsSet := false }
  else if env.responseStatus ≠ 200 then
    some { ret := ChunkRet.err (GameDownloadError.communication
             (RemoteAccessError.invalidCodeError 400)),
           written := [], progressSetZero := false, permissionsSet := false }
  else if ctx.path ∈ env.fs then
    match env.contentLength with
    | none =>
        some { ret := ChunkRet.err (GameDownloadError.communication
                 RemoteAccessError.invalidResponse),
               written := [], progressSetZero := false, permissionsSet := false }
    | some n =>
        let p : DropDownloadPipeline :=
          { source := env.body, written := [], controlFlag := controlFlag,
            progress := 0, size := n }
        match copy fuel p with
        | none => none
        | some (false, pf) =>
            some { ret := ChunkRet.ok false, written := pf.written,
                   progressSetZero := false, permissionsSet := false }
        | some (true, pf) =>
            some { ret := ChunkRet.ok true, written := pf.written,
                   progressSetZero := false, permissionsSet := isUnix }
  else
    some { ret := ChunkRet.panicked, written := [], progressSetZero := false,
           permissionsSet := false }

/-- The state reached by a non-panicking step, if any. -/
def StepResult.stateOf : StepResult → Option BuilderState
  | StepResult.ok out => some out.state
  | StepResult.panicked => none

/-- The signals emitted by a non-panicking step, if any. -/
def StepResult.emittedOf : StepResult → Option (List DownloadManagerSignal)
  | StepResult.ok out => some out.emitted
  | StepResult.panicked => none

/-- The worker threads spawned by a non-panicking step, if any. -/
def StepResult.spawnedOf : StepResult → Option (List String)
  | StepResult.ok out => some out.spawned
  | StepResult.panicked => none

/-- Channel trace for the queue/registry desynchronisation: admit `a`, start
it, admit `b`, cancel `a`, then the worker's `Completed("a")` arrives.  This
arrival order is realizable: the worker for `a` finishes and sends
`Completed("a")` after `Cancel("a")` has been enqueued but before the `Go`
that the cancel handler pushes mid-handling, so the channel reads
`…, Cancel("a"), Completed("a"), Go`; the run stops at the stable point after
the `Completed` handler. -/
def desyncTrace : List DownloadManagerSignal :=
  [DownloadManagerSignal.queue "a" "v" 0,
   DownloadManagerSignal.go,
   DownloadManagerSignal.queue "b" "v" 0,
   DownloadManagerSignal.cancel "a",
   DownloadManagerSignal.completed "a"]

/-- The state after `Queue("a")`, `Go`: job `a` is admitted and active (bound
as current game interface, active control flag set to `Go`, progress bound),
and no `Completed` has been processed. -/
def goActiveState : BuilderState :=
  { registry := [("a", ⟨"a", "v", 0⟩)]
    queue := ["a"]
    flags := [("a", DownloadThreadControlFlag.go)]
    activeControlFlag := some "a"
    currentGameInterface := some "a"
    progress := some "a"
    status := DownloadManagerStatus.downloading
    jobStatus := [("a", GameDownloadStatus.uninitialised)]
    dbStatus := [("a", DatabaseGameStatus.downloading)] }

/-- The state after `Queue("a")` alone: one queued job, nothing active. -/
def queuedOnlyState : BuilderState :=
  { registry := [("a", ⟨"a", "v", 0⟩)]
    queue := ["a"]
    flags := [("a", DownloadThreadControlFlag.stop)]
    activeControlFlag := none
    currentGameInterface := none
    progress := none
    status := DownloadManagerStatus.empty
    jobStatus := [("a", GameDownloadStatus.uninitialised)]
    dbStatus := [("a", DatabaseGameStatus.queued)] }

/-- The state after `Queue("a")`, `Queue("b")`: two queued jobs, nothing
active. -/
def twoQueuedState : BuilderState :=
  { registry := [("b", ⟨"b", "v", 0⟩), ("a", ⟨"a", "v", 0⟩)]
    queue := ["a", "b"]
    flags := [("b", DownloadThreadControlFlag.stop), ("a", DownloadThreadControlFlag.stop)]
    activeControlFlag := none
    currentGameInterface := none
    progress := none
    status := DownloadManagerStatus.empty
    jobStatus := [("b", GameDownloadStatus.uninitialised), ("a", GameDownloadStatus.uninitialised)]
    dbStatus := [("b", DatabaseGameStatus.queued), ("a", DatabaseGameStatus.queued)] }

/-- The state after `Queue("a")`, `Go`, `Queue("b")`: job `a` is active and
downloading, job `b` is queued behind it. -/
def activePlusQueuedState : BuilderState :=
  { registry := [("b", ⟨"b", "v", 0⟩), ("a", ⟨"a", "v", 0⟩)]
    queue := ["a", "b"]
    flags := [("b", DownloadThreadControlFlag.stop), ("a", DownloadThreadControlFlag.go)]
    activeControlFlag := some "a"
    currentGameInterface := some "a"
    progress := some "a"
    status := DownloadManagerStatus.downloading
    jobStatus := [("b", GameDownloadStatus.uninitialised), ("a", GameDownloadStatus.uninitialised)]
    dbStatus := [("b", DatabaseGameStatus.queued), ("a", DatabaseGameStatus.downloading)] }

/-- A pipeline whose response declared `Content-Length: 1` but whose body is
already exhausted (the connection delivered fewer bytes than declared), with
the control flag left at `Go`. -/
def shortStreamPipeline : DropDownloadPipeline :=
  { source := [], written := [], controlFlag := DownloadThreadControlFlag.go,
    progress := 0, size := 1 }

/-- A chunk context for the first chunk (index 0) of a multi-chunk file — a
non-final chunk. -/
def nonFinalChunkCtx : DropDownloadContext :=
  { gameId := "g", version := "v", fileName := "f", index := 0,
    path := "dest", offset := 0, permissions := 484, checksum := "feed" }

/-- A successful 3-byte response for `nonFinalChunkCtx`, with the destination
file already present. -/
def nonFinalChunkEnv : ChunkEnv :=
  { fs := ["dest"], responseStatus := 200, contentLength := some 3,
    body := [1, 2, 3] }

/-- A chunk context whose destination file will be absent. -/
def missingFileCtx : DropDownloadContext :=
  { gameId := "g", version := "v", fileName := "f", index := 0,
    path := "absent", offset := 0, permissions := 484, checksum := "feed" }

/-- An environment with a healthy response but no pre-created destination
file. -/
def missingFileEnv : ChunkEnv :=
  { fs := [], responseStatus := 200, contentLength := some 3,
    body := [1, 2, 3] }

theorem lookupA_removeA {α : Type} (k : String) (m : List (String × α)) :
    lookupA k (removeA k m) = none := by
  induction m with
  | nil => rfl
  | cons p rest ih =>
      obtain ⟨k', v⟩ := p
      by_cases h : k' = k
      · simpa [removeA, List.filter_cons, h] using ih
      · simpa [removeA, List.filter_cons, h, lookupA] using ih

theorem lookupA_setA_self {α : Type} (k : String) (v : α) (m : List (String × α))
    (h : (lookupA k m).isSome) : lookupA k (setA k v m) = some v := by
  induction m with
  | nil => simp [lookupA] at h
  | cons p rest ih =>
      obtain ⟨k', w⟩ := p
      by_cases hk : k' = k
      · subst hk
        have hmap : setA k' v ((k', w) :: rest) = (k', v) :: setA k' v rest := by
          simp [setA]
        rw [hmap]
        simp [lookupA]
      · have hmap : setA k v ((k', w) :: rest) = (k', w) :: setA k v rest := by
          simp [setA, hk]
        rw [hmap]
        simp only [lookupA, if_neg hk]
        exact ih (by simpa only [lookupA, if_neg hk] using h)

theorem position_isSome_of_mem {x : String} {l : List String} (h : x ∈ l) :
    ∃ i, position x l = some i := by
  induction l with
  | nil => cases h
  | cons y ys ih =>
      by_cases hy : y = x
      · exact ⟨0, by simp [position, hy]⟩
      · rcases List.mem_cons.mp h with h1 | h2
        · exact absurd h1.symm hy
        · obtain ⟨j, hj⟩ := ih h2
          exact ⟨j + 1, by simp [position, hy, hj]⟩

theorem not_mem_eraseIdx_of_position {x : String} :
    ∀ {l : List String} {i : Nat}, l.Nodup → position x l = some i →
      x ∉ l.eraseIdx i := by
  intro l
  induction l with
  | nil => intro i _ hp; simp [position] at hp
  | cons y ys ih =>
      intro i hnd hp
      by_cases hy : y = x
      · simp only [position, if_pos hy] at hp
        obtain rfl : (0 : Nat) = i := Option.some.inj hp
        subst hy
        simpa [List.eraseIdx] using (List.nodup_cons.mp hnd).1
      · simp only [position, if_neg hy, Option.map_eq_some'] at hp
        obtain ⟨j, hj, hi⟩ := hp
        subst hi
        simp only [List.eraseIdx, List.mem_cons, not_or]
        exact ⟨fun he => hy he.symm, ih (List.nodup_cons.mp hnd).2 hj⟩

/-- C1: REFUTED on the code (code bug).  The spec's invariant — at every
stable point between signal handlers the set of ids in the queue equals the
set of ids in the registry, every handler pairing its mutations — is violated
by a realizable channel trace.  `manage_completed_signal` guards only on
`current_game_interface` (which `manage_cancel_signal` never clears) and then
pops the queue *front* while removing the *signalled* id from the registry:
after `Queue("a")`, `Go`, `Queue("b")`, `Cancel("a")`, a stale
`Completed("a")` pops `b` from the queue but removes `a` (already gone) from
the registry, leaving the queue empty while the registry still holds `b`.
This contradicts the source file's own banner comment, which promises that
mutating only through signals prevents a queue/registry desync. -/
theorem queue_registry_desync_after_stale_completed :
    (run initState desyncTrace).map (fun s => (s.queue, registryIds s)) =
      some ([], ["b"]) := by decide

/-- C2 counterexample: handling `Go` while job `a` is already active (bound as
current game interface with its control flag set, no `Completed` processed)
is NOT a no-op: `manage_go_signal` has no already-active guard and spawns a
fresh worker thread for the front agent (`spawnedOf = some ["a"]`), where the
claim requires that no new worker be spawned. -/
theorem go_while_active_spawns_duplicate_worker :
    run initState [DownloadManagerSignal.queue "a" "v" 0, DownloadManagerSignal.go] =
      some goActiveState ∧
    goActiveState.currentGameInterface = some "a" ∧
    goActiveState.activeControlFlag = some "a" ∧
    (step goActiveState DownloadManagerSignal.go).spawnedOf = some ["a"] := by decide

/-- C2 amended: handling `Go` while the front job is already the active one
leaves the queue, registry, current game interface, active control flag,
progress binding, and per-job statuses unchanged (it rebinds the same values
and re-asserts flag `Go` and status `Downloading`), but it does spawn one
additional worker thread for the front job. -/
theorem go_while_active_rebinds_and_spawns (s : BuilderState) (id : String)
    (ag : GameDownloadAgent)
    (hq : s.queue.head? = some id)
    (hc : s.currentGameInterface = some id)
    (ha : s.activeControlFlag = some id)
    (hp : s.progress = some id)
    (hr : lookupA id s.registry = some ag) :
    ∃ out, step s DownloadManagerSignal.go = StepResult.ok out ∧
      out.state.queue = s.queue ∧
      out.state.registry = s.registry ∧
      out.state.currentGameInterface = s.currentGameInterface ∧
      out.state.activeControlFlag = s.activeControlFlag ∧
      out.state.progress = s.progress ∧
      out.state.jobStatus = s.jobStatus ∧
      out.emitted = [] ∧
      out.spawned = [id] := by
  have hqne : s.queue.isEmpty = false := by
    cases hql : s.queue with
    | nil => rw [hql] at hq; simp at hq
    | cons x xs => rfl
  have hrne : s.registry.isEmpty = false := by
    cases hrl : s.registry with
    | nil => rw [hrl] at hr; simp [lookupA] at hr
    | cons x xs => rfl
  have hstep : step s DownloadManagerSignal.go = StepResult.ok
      { state :=
          { s with
            currentGameInterface := some id
            progress := some id
            activeControlFlag := some id
            flags := setA id DownloadThreadControlFlag.go s.flags
            status := DownloadManagerStatus.downloading
            dbStatus := insertA id DatabaseGameStatus.downloading s.dbStatus }
        emitted := []
        spawned := [id] } := by
    simp [step, manageGoSignal, hqne, hrne, hq, hr]
  exact ⟨_, hstep, rfl, rfl, hc.symm, ha.symm, hp.symm, rfl, rfl, rfl⟩

/-- C2 witness: the amended statement at the concrete reachable state
`goActiveState`. -/
theorem go_while_active_rebinds_witness :
    ∃ out, step goActiveState DownloadManagerSignal.go = StepResult.ok out ∧
      out.state.queue = goActiveState.queue ∧
      out.state.registry = goActiveState.registry ∧
      out.state.currentGameInterface = goActiveState.currentGameInterface ∧
      out.state.activeControlFlag = goActiveState.activeControlFlag ∧
      out.state.progress = goActiveState.progress ∧
      out.state.jobStatus = goActiveState.jobStatus ∧
      out.emitted = [] ∧
      out.spawned = ["a"] :=
  go_while_active_rebinds_and_spawns goActiveState "a" ⟨"a", "v", 0⟩
    (by decide) (by decide) (by decide) (by decide) (by decide)

/-- C3 counterexample: handling `Completed("zzz")` when `"zzz"` is not the
currently active job is NOT free of further action: `manage_completed_signal`
sends `Go` into the channel unconditionally (`emittedOf = some [Go]`), where
the claim requires that no further action be taken.  In the exhibited
reachable state (queue `["a"]`, nothing active) that `Go` starts job `a`. -/
theorem stale_completed_emits_go :
    run initState [DownloadManagerSignal.queue "a" "v" 0] = some queuedOnlyState ∧
    queuedOnlyState.currentGameInterface = none ∧
    (step queuedOnlyState (DownloadManagerSignal.completed "zzz")).emittedOf =
      some [DownloadManagerSignal.go] := by decide

/-- C3 amended: handling `Completed(id)` when `id` is not the currently
active job leaves the whole scheduler state unchanged (queue, registry,
active bindings, progress binding, per-job statuses), but unconditionally
emits a `Go` signal. -/
theorem stale_completed_is_noop_but_emits_go (s : BuilderState) (gameId : String)
    (h : s.currentGameInterface ≠ some gameId) :
    step s (DownloadManagerSignal.completed gameId) =
      StepResult.ok { state := s, emitted := [DownloadManagerSignal.go],
                      spawned := [] } := by
  cases hc : s.currentGameInterface with
  | none => simp [step, manageCompletedSignal, hc]
  | some cid =>
      have hcid : cid ≠ gameId := fun he => h (by rw [hc, he])
      simp [step, manageCompletedSignal, hc, hcid]

/-- C3 witness: the amended statement at the concrete reachable state
`queuedOnlyState` with the stale id `"zzz"`. -/
theorem stale_completed_is_noop_witness :
    step queuedOnlyState (DownloadManagerSignal.completed "zzz") =
      StepResult.ok { state := queuedOnlyState,
                      emitted := [DownloadManagerSignal.go], spawned := [] } :=
  stale_completed_is_noop_but_emits_go queuedOnlyState "zzz" (by decide)

/-- C4: CONFIRMED.  For every scheduler state whose queue contains `id`
(ids are unique per the spec's JobHandle identity invariant, hence the
`Nodup` hypothesis) and at any position — front, middle, or the currently
active front job — handling `Cancel(id)` removes `id` from both the queue
and the registry, and emits a `Go` signal to attempt starting the new front
job. -/
theorem cancel_removes_id_and_emits_go (s : BuilderState) (gameId : String)
    (hmem : gameId ∈ s.queue) (hnd : s.queue.Nodup) :
    ∃ out, step s (DownloadManagerSignal.cancel gameId) = StepResult.ok out ∧
      gameId ∉ out.state.queue ∧
      lookupA gameId out.state.registry = none ∧
      out.emitted = [DownloadManagerSignal.go] := by
  obtain ⟨i, hpos⟩ := position_isSome_of_mem hmem
  have hq := not_mem_eraseIdx_of_position hnd hpos
  have hreg : lookupA gameId (removeA gameId s.registry) = none :=
    lookupA_removeA _ _
  rcases hact : s.activeControlFlag with _ | fid <;>
    simp [step, manageCancelSignal, hact, hpos, hq, hreg]

/-- C4 witness: cancelling the queued-but-not-front job `"b"` in the concrete
reachable state `twoQueuedState`. -/
theorem cancel_removes_id_witness :
    ∃ out, step twoQueuedState (DownloadManagerSignal.cancel "b") =
        StepResult.ok out ∧
      "b" ∉ out.state.queue ∧
      lookupA "b" out.state.registry = none ∧
      out.emitted = [DownloadManagerSignal.go] :=
  cancel_removes_id_and_emits_go twoQueuedState "b" (by decide) (by decide)

/-- C5 counterexample: in the reachable state where `a` is active and
downloading and `b` is merely queued, handling `Cancel("b")` — an id that is
NOT the active job — nevertheless sets `a`'s control flag to `Stop` and
clears the active flag and progress bindings, because
`manage_cancel_signal` stops whatever flag is bound before ever inspecting
the cancelled id.  The claim requires `a`'s flag and the progress binding to
be left unchanged. -/
theorem cancel_queued_id_stops_active_download :
    run initState [DownloadManagerSignal.queue "a" "v" 0, DownloadManagerSignal.go,
                   DownloadManagerSignal.queue "b" "v" 0] = some activePlusQueuedState ∧
    activePlusQueuedState.currentGameInterface = some "a" ∧
    lookupA "a" activePlusQueuedState.flags = some DownloadThreadControlFlag.go ∧
    activePlusQueuedState.progress = some "a" ∧
    (step activePlusQueuedState (DownloadManagerSignal.cancel "b")).stateOf.map
      (fun s => (lookupA "a" s.flags, s.activeControlFlag, s.progress)) =
      some (some DownloadThreadControlFlag.stop, none, none) := by decide

/-- C5 amended: handling `Cancel(id)` sets the bound active control flag to
`Stop` and clears the active flag and progress bindings whenever any flag is
bound as active, regardless of whether `id` is the currently active job; the
registry entry for `id` is removed unconditionally. -/
theorem cancel_always_stops_bound_active_flag (s : BuilderState)
    (gameId fid : String)
    (hact : s.activeControlFlag = some fid)
    (hf : (lookupA fid s.flags).isSome) :
    ∃ out, step s (DownloadManagerSignal.cancel gameId) = StepResult.ok out ∧
      out.state.activeControlFlag = none ∧
      out.state.progress = none ∧
      lookupA fid out.state.flags = some DownloadThreadControlFlag.stop ∧
      lookupA gameId out.state.registry = none := by
  have hflag : lookupA fid (setA fid DownloadThreadControlFlag.stop s.flags) =
      some DownloadThreadControlFlag.stop := lookupA_setA_self fid _ s.flags hf
  have hreg : lookupA gameId (removeA gameId s.registry) = none :=
    lookupA_removeA _ _
  rcases hpos : position gameId s.queue with _ | idx <;>
    simp [step, manageCancelSignal, hact, hpos, hflag, hreg]

/-- C5 witness: the amended statement at the concrete reachable state
`activePlusQueuedState`, cancelling the non-active id `"b"` while `a`'s flag
is bound active. -/
theorem cancel_always_stops_witness :
    ∃ out, step activePlusQueuedState (DownloadManagerSignal.cancel "b") =
        StepResult.ok out ∧
      out.state.activeControlFlag = none ∧
      out.state.progress = none ∧
      lookupA "a" out.state.flags = some DownloadThreadControlFlag.stop ∧
      lookupA "b" out.state.registry = none :=
  cancel_always_stops_bound_active_flag activePlusQueuedState "b" "a"
    (by decide) (by decide)

/-- Auxiliary to C6: once the source is exhausted short of the declared size
and the flag is not `Stop`, every iteration of the copy loop reads zero
bytes, leaves the accumulator short of `size`, and loops again — the loop
never returns, for any amount of fuel. -/
theorem copyLoop_exhausted_source (fuel : Nat) :
    ∀ (p : DropDownloadPipeline) (currentSize : Nat),
      p.source = [] → p.controlFlag ≠ DownloadThreadControlFlag.stop →
      currentSize ≠ p.size → copyLoop fuel p currentSize = none := by
  induction fuel with
  | zero => intro p c _ _ _; rfl
  | succ n ih =>
      intro p c hsrc hflag hsize
      simp only [copyLoop, if_neg hflag, readChunkLen, hsrc, List.length_nil,
        Nat.min_zero, List.drop_zero, List.take_zero, List.append_nil,
        Nat.add_zero, if_neg hsize]
      exact ih _ c (by simp [hsrc]) hflag hsize

/-- Supporting result for C6's first half: a stream that delivers exactly its
declared `size` bytes makes the copy loop terminate with result `Ok(true)`,
having written exactly those bytes — the loop never issues another read once
the running total reaches `size`, so it never reads past the declared
length. -/
theorem copyLoop_delivers :
    ∀ (fuel : Nat) (p : DropDownloadPipeline) (c : Nat),
      p.controlFlag ≠ DownloadThreadControlFlag.stop →
      c + p.source.length = p.size →
      p.source ≠ [] →
      p.source.length ≤ 512 * fuel →
      ∃ pf, copyLoop fuel p c = some (true, pf) ∧
        pf.written = p.written ++ p.source ∧
        pf.source = [] ∧
        pf.progress = p.progress + p.source.length := by
  intro fuel
  induction fuel with
  | zero =>
      intro p c _ _ hne hfuel
      exact absurd (List.eq_nil_of_length_eq_zero (by omega)) hne
  | succ n ih =>
      intro p c hflag hsize hne hfuel
      by_cases hlen : p.source.length ≤ 512
      · have hmin : readChunkLen p.source = p.source.length :=
          min_eq_right hlen
        have hcond : c + readChunkLen p.source = p.size := by rw [hmin]; exact hsize
        refine ⟨⟨p.source.drop (readChunkLen p.source),
                 p.written ++ p.source.take (readChunkLen p.source),
                 p.controlFlag, p.progress + readChunkLen p.source, p.size⟩,
                ?_, ?_, ?_, ?_⟩
        · simp only [copyLoop, if_neg hflag, if_pos hcond]
        · show p.written ++ p.source.take (readChunkLen p.source) = p.written ++ p.source
          rw [hmin, List.take_length]
        · show p.source.drop (readChunkLen p.source) = []
          rw [hmin, List.drop_length]
        · show p.progress + readChunkLen p.source = p.progress + p.source.length
          rw [hmin]
      · have h512 : 512 < p.source.length := by omega
        have hmin : readChunkLen p.source = 512 :=
          min_eq_left (Nat.le_of_lt h512)
        have hcond : ¬(c + readChunkLen p.source = p.size) := by
          rw [hmin]; omega
        have hstep : copyLoop (n + 1) p c =
            copyLoop n
              ⟨p.source.drop (readChunkLen p.source),
               p.written ++ p.source.take (readChunkLen p.source),
               p.controlFlag, p.progress + readChunkLen p.source, p.size⟩
              (c + readChunkLen p.source) := by
          simp only [copyLoop, if_neg hflag, if_neg hcond]
        obtain ⟨pf, hrun, hw, hs, hpr⟩ := ih
          ⟨p.source.drop (readChunkLen p.source),
           p.written ++ p.source.take (readChunkLen p.source),
           p.controlFlag, p.progress + readChunkLen p.source, p.size⟩
          (c + readChunkLen p.source)
          hflag
          (show c + readChunkLen p.source + (p.source.drop (readChunkLen p.source)).length
              = p.size by rw [hmin, List.length_drop]; omega)
          (show p.source.drop (readChunkLen p.source) ≠ [] by
            intro hnil
            have hlen0 := congrArg List.length hnil
            rw [hmin, List.length_drop, List.length_nil] at hlen0
            omega)
          (show (p.source.drop (readChunkLen p.source)).length ≤ 512 * n by
            rw [hmin, List.length_drop]; omega)
        refine ⟨pf, by rw [hstep]; exact hrun, ?_, hs, ?_⟩
        · rw [hw]
          show p.written ++ p.source.take (readChunkLen p.source) ++
              p.source.drop (readChunkLen p.source) = p.written ++ p.source
          rw [List.append_assoc, List.take_append_drop]
        · rw [hpr]
          show p.progress + readChunkLen p.source +
              (p.source.drop (readChunkLen p.source)).length = p.progress + p.source.length
          rw [hmin, List.length_drop]
          omega

/-- C6: the code evaluated at the failing input (code bug).  A response
declaring `Content-Length: 1` whose body delivers no bytes (a short read)
makes `DropDownloadPipeline::copy` loop forever with the flag at `Go`: no
protocol error is returned — in fact the loop never returns at all, for any
fuel.  (The other half of this claim — a stream delivering its declared `N`
bytes terminates the loop with exactly `N` bytes written — holds; the copy
breaks exactly when the running total reaches `size`.) -/
theorem copy_short_stream_never_returns (fuel : Nat) :
    copy fuel shortStreamPipeline = none :=
  copyLoop_exhausted_source fuel shortStreamPipeline 0 rfl
    (by decide) (by decide)

/-- C7: the code evaluated against the claim (code bug).  `download_game_chunk`
can never return a `Checksum` error for any input whatsoever: the hashing
write-through in `DropWriter::write` and the final comparison against
`ctx.checksum` are both commented out in the source, so no outcome of the
function mentions `GameDownloadError::Checksum`.  The spec explicitly
requires the comparison and flags its absence as a latent/incomplete
feature. -/
theorem download_game_chunk_never_checksum_error (isUnix : Bool) (fuel : Nat)
    (ctx : DropDownloadContext) (env : ChunkEnv)
    (flag : DownloadThreadControlFlag) :
    (downloadGameChunk isUnix fuel ctx env flag).map ChunkResult.ret ≠
      some (ChunkRet.err GameDownloadError.checksum) := by
  by_cases h1 : flag = DownloadThreadControlFlag.stop
  · simp [downloadGameChunk, h1]
  · by_cases h2 : env.responseStatus = 200
    · by_cases h3 : ctx.path ∈ env.fs
      · cases hcl : env.contentLength with
        | none => simp [downloadGameChunk, h1, h2, h3, hcl]
        | some n =>
            cases hcopy : copy fuel
                { source := env.body, written := [], controlFlag := flag,
                  progress := 0, size := n } with
            | none => simp [downloadGameChunk, h1, h2, h3, hcl, hcopy]
            | some pr =>
                obtain ⟨completed, pf⟩ := pr
                cases completed <;>
                  simp [downloadGameChunk, h1, h2, h3, hcl, hcopy]
      · simp [downloadGameChunk, h1, h2, h3]
    · simp [downloadGameChunk, h1, h2]

/-- C8 counterexample: completing chunk 0 of a multi-chunk file — a
non-final chunk — sets the destination's permissions (`permissionsSet =
true`): the permission-setting block in `download_game_chunk` runs after
every completed copy with no finality condition (the chunk context does not
even carry one), where the claim requires it to run only for the final
chunk. -/
theorem nonfinal_chunk_completion_sets_permissions :
    downloadGameChunk true 8 nonFinalChunkCtx nonFinalChunkEnv
        DownloadThreadControlFlag.go =
      some { ret := ChunkRet.ok true, written := [1, 2, 3],
             progressSetZero := false, permissionsSet := true } := by decide

/-- C8 amended: the destination's permissions are set exactly when the copy
completed successfully AND the platform is unix — on every such chunk, final
or not; paused, failed, or panicking invocations never set permissions, and
on non-unix platforms the step is compiled out. -/
theorem permissions_set_iff_completed_on_unix (isUnix : Bool) (fuel : Nat)
    (ctx : DropDownloadContext) (env : ChunkEnv)
    (flag : DownloadThreadControlFlag) (r : ChunkResult)
    (h : downloadGameChunk isUnix fuel ctx env flag = some r) :
    r.permissionsSet = true ↔ (r.ret = ChunkRet.ok true ∧ isUnix = true) := by
  by_cases h1 : flag = DownloadThreadControlFlag.stop
  · simp only [downloadGameChunk, if_pos h1, Option.some.injEq] at h
    subst h; simp
  · by_cases h2 : env.responseStatus = 200
    · by_cases h3 : ctx.path ∈ env.fs
      · cases hcl : env.contentLength with
        | none =>
            simp [downloadGameChunk, h1, h2, h3, hcl] at h
            subst h; simp
        | some n =>
            cases hcopy : copy fuel
                { source := env.body, written := [], controlFlag := flag,
                  progress := 0, size := n } with
            | none => simp [downloadGameChunk, h1, h2, h3, hcl, hcopy] at h
            | some pr =>
                obtain ⟨completed, pf⟩ := pr
                cases completed <;>
                  · simp [downloadGameChunk, h1, h2, h3, hcl, hcopy] at h
                    subst h; simp
      · simp [downloadGameChunk, h1, h2, h3] at h
        subst h; simp
    · simp [downloadGameChunk, h1, h2] at h
      subst h; simp

/-- C8 witness: the amended statement at the concrete successful unix chunk
transfer of `nonFinalChunkCtx`/`nonFinalChunkEnv`. -/
theorem permissions_set_iff_witness :
    (({ ret := ChunkRet.ok true, written := [1, 2, 3], progressSetZero := false,
        permissionsSet := true } : ChunkResult).permissionsSet = true ↔
      (({ ret := ChunkRet.ok true, written := [1, 2, 3], progressSetZero := false,
          permissionsSet := true } : ChunkResult).ret = ChunkRet.ok true ∧
        true = true)) :=
  permissions_set_iff_completed_on_unix true 8 nonFinalChunkCtx nonFinalChunkEnv
    DownloadThreadControlFlag.go _ (by decide)

/-- C9 counterexample: an `Error` signal processed while no current game
interface is bound (for example, right after startup, before any `Go`)
panics the scheduler thread: `manage_error_signal` calls
`self.current_game_interface.clone().unwrap()` on `None`.  The claim says
the scheduler never panics on any malformed signal. -/
theorem error_with_no_current_interface_panics :
    step initState (DownloadManagerSignal.error GameDownloadError.checksum) =
      StepResult.panicked := rfl

/-- C9 amended: handling a stale `Completed` or a `Cancel` for an unknown id
never panics (they are ignored or no-ops, for every scheduler state); an
`Error` signal, however, panics exactly when no current game interface is
bound. -/
theorem scheduler_panic_characterisation (s : BuilderState) (gameId : String)
    (e : GameDownloadError) :
    step s (DownloadManagerSignal.completed gameId) ≠ StepResult.panicked ∧
    step s (DownloadManagerSignal.cancel gameId) ≠ StepResult.panicked ∧
    (step s (DownloadManagerSignal.error e) = StepResult.panicked ↔
      s.currentGameInterface = none) := by
  refine ⟨?_, ?_, ?_⟩
  · cases hc : s.currentGameInterface with
    | none => simp [step, manageCompletedSignal, hc]
    | some cid =>
        by_cases hcid : cid = gameId <;>
          simp [step, manageCompletedSignal, hc, hcid]
  · rcases hact : s.activeControlFlag with _ | fid <;>
      rcases hpos : position gameId s.queue with _ | idx <;>
        simp [step, manageCancelSignal, hact, hpos]
  · cases hc : s.currentGameInterface <;>
      simp [step, manageErrorSignal, hc]

/-- C10: CONFIRMED.  Whenever the control flag is not `Stop`, the chunk
request succeeds (HTTP 200) and the destination path does not refer to an
existing file, `download_game_chunk` panics — `DropWriter::new` opens the
destination write-only without the create flag and unwraps the result —
rather than returning an `Io` error; the destination must have been
pre-created by a layer outside this core. -/
theorem download_game_chunk_missing_destination_panics
    (isUnix : Bool) (fuel : Nat) (ctx : DropDownloadContext) (env : ChunkEnv)
    (flag : DownloadThreadControlFlag)
    (hflag : flag ≠ DownloadThreadControlFlag.stop)
    (hstatus : env.responseStatus = 200)
    (hfs : ctx.path ∉ env.fs) :
    downloadGameChunk isUnix fuel ctx env flag =
      some { ret := ChunkRet.panicked, written := [], progressSetZero := false,
             permissionsSet := false } := by
  simp [downloadGameChunk, hflag, hstatus, hfs]

/-- C10 witness: the panic at a concrete chunk context whose destination file
is absent. -/
theorem download_game_chunk_missing_destination_witness :
    downloadGameChunk true 4 missingFileCtx missingFileEnv
        DownloadThreadControlFlag.go =
      some { ret := ChunkRet.panicked, written := [], progressSetZero := false,
             permissionsSet := false } :=
  download_game_chunk_missing_destination_panics true 4 missingFileCtx
    missingFileEnv DownloadThreadControlFlag.go (by decide) (by decide)
    (by decide)

end DropApp
